import Mathlib

/-!
# Verification of the ledger line parser (`src/parsers/ledger_parser.py`)
and the spreadsheet writer (`src/utils/excel_writer.py`)

The development shallowly embeds the Python source:

* Each compiled regular expression of `LedgerParser.__init__` is encoded as a
  term of a small regex syntax `RE` and run by a backtracking matcher `mat`
  that mirrors the Python `re` engine on the constructs those patterns use
  (literals, character classes, greedy `*`/`+`/`?`, lazy `*?`, bounded
  repetition, capture groups, the `$` anchor).  `re.match` anchors at the
  start of the string (`matchRe`); `re.search` tries every start position
  from the left (`searchRe`).  Greedy pieces try the longer alternative
  first, lazy pieces the shorter one, exactly as the Python engine does.
* `LedgerParser._process_line`, `_flush_account` and `parse` become pure
  functions over an explicit `ParserState` record whose fields are the
  mutable attributes set in `LedgerParser.__init__`.
* `ExcelWriter.write` becomes a function into `Except`, the error
  constructor standing for the `ValueError` raised on empty inputs.

Character classes use the ASCII readings of `\d` and `\s`; the ledger text
the source consumes is ASCII.
-/

/-- ASCII digit, the `\d` class of the source's patterns. -/
def isDigitCh (c : Char) : Bool := c.isDigit

/-- Python whitespace, the `\s` class: space, tab, newline, vertical tab,
form feed, carriage return. -/
def isPySpace (c : Char) : Bool :=
  c = ' ' || c = '\t' || c = '\n' || c = Char.ofNat 11 || c = Char.ofNat 12 || c = '\r'

/-- The `\S` class. -/
def isNonSpaceCh (c : Char) : Bool := !(isPySpace c)

/-- The `[A-Z]` class. -/
def isUpperAZ (c : Char) : Bool := 'A' ≤ c && c ≤ 'Z'

/-- The `[\d,.\-]` class used for decimal-amount captures. -/
def isAmtCh (c : Char) : Bool := c.isDigit || c = ',' || c = '.' || c = '-'

/-- The `.` class (any character except newline). -/
def isAnyCh (c : Char) : Bool := c ≠ '\n'

/-- Syntax of the regex fragment used by `ledger_parser.py`.  Stars only ever
apply to single character classes there, so the star constructors carry the
class directly. -/
inductive RE where
  | eps : RE
  | chr (c : Char) : RE
  | cls (p : Char → Bool) : RE
  | seq (a b : RE) : RE
  | opt (a : RE) : RE
  | starG (p : Char → Bool) : RE
  | starL (p : Char → Bool) : RE
  | eol : RE
  | group (i : Nat) (a : RE) : RE

/-- Captured groups: group index paired with the captured characters.  The
most recent capture for an index is consed on the front. -/
abbrev Caps := List (Nat × List Char)

/-- Look up the capture of group `i`. -/
def capsFind (i : Nat) : Caps → Option (List Char)
  | [] => none
  | (j, g) :: rest => if j = i then some g else capsFind i rest

/-- Greedy star over a character class, in continuation-passing style: try to
consume one more matching character first, fall back to stopping, exactly the
backtracking order of the Python engine. -/
def starClsG (p : Char → Bool) (s : List Char) (caps : Caps)
    (k : List Char → Caps → Option Caps) : Option Caps :=
  match s with
  | [] => k [] caps
  | c :: cs => if p c then (starClsG p cs caps k) <|> k (c :: cs) caps else k (c :: cs) caps

/-- Lazy star over a character class: try stopping first, consume one more
matching character only on failure. -/
def starClsL (p : Char → Bool) (s : List Char) (caps : Caps)
    (k : List Char → Caps → Option Caps) : Option Caps :=
  (k s caps) <|>
    match s with
    | [] => none
    | c :: cs => if p c then starClsL p cs caps k else none

/-- The backtracking matcher.  `mat re s caps k` matches `re` against a
prefix of `s`, extends the captures `caps`, and runs the continuation `k` on
the remainder; alternatives are explored in the Python engine's order. -/
def mat : RE → List Char → Caps → (List Char → Caps → Option Caps) → Option Caps
  | .eps, s, caps, k => k s caps
  | .chr c, s, caps, k =>
    match s with
    | [] => none
    | x :: xs => if x = c then k xs caps else none
  | .cls p, s, caps, k =>
    match s with
    | [] => none
    | x :: xs => if p x then k xs caps else none
  | .seq a b, s, caps, k => mat a s caps (fun s' caps' => mat b s' caps' k)
  | .opt a, s, caps, k => (mat a s caps k) <|> k s caps
  | .starG p, s, caps, k => starClsG p s caps k
  | .starL p, s, caps, k => starClsL p s caps k
  | .eol, s, caps, k =>
    match s with
    | [] => k [] caps
    | _ :: _ => none
  | .group i a, s, caps, k =>
    mat a s caps (fun s' caps' => k s' ((i, s.take (s.length - s'.length)) :: caps'))

/-- Python `re.match`: anchored at the start, the rest of the string unconstrained
unless the pattern ends in `$`. -/
def matchRe (re : RE) (s : List Char) : Option Caps :=
  mat re s [] (fun _ caps => some caps)

/-- Python `re.search`: try each start position from the left. -/
def searchRe (re : RE) : List Char → Option Caps
  | [] => matchRe re []
  | c :: cs => matchRe re (c :: cs) <|> searchRe re cs

/-- A literal string of characters. -/
def reLit : List Char → RE
  | [] => .eps
  | c :: cs => .seq (.chr c) (reLit cs)

/-- Sequence of regexes. -/
def reSeq : List RE → RE
  | [] => .eps
  | r :: rs => .seq r (reSeq rs)

/-- Greedy `+` over a character class. -/
def rePlus (p : Char → Bool) : RE := .seq (.cls p) (.starG p)

/-- Greedy `\d{1,2}`. -/
def reDigit12 : RE := .seq (.cls isDigitCh) (.opt (.cls isDigitCh))

/-- Greedy `\d{1,3}`. -/
def reDigit13 : RE :=
  .seq (.cls isDigitCh) (.opt (.seq (.cls isDigitCh) (.opt (.cls isDigitCh))))

/-- The regex `\d{4}`. -/
def reDigit4 : RE := reSeq [.cls isDigitCh, .cls isDigitCh, .cls isDigitCh, .cls isDigitCh]

/-- The regex `\$?`. -/
def reDollar : RE := .opt (.chr '$')

/-- Body of `^\*\s*Year-End Adjustments\s*$`, without the `$`. -/
def footer1Core : RE :=
  reSeq [.chr '*', .starG isPySpace, reLit "Year-End Adjustments".toList, .starG isPySpace]

/-- The first footer pattern `^\*\s*Year-End Adjustments\s*$`. -/
def footer1RE : RE := .seq footer1Core .eol

/-- Body of `^Page\s+\d+\s+of\s+\d+\s*$`, without the `$`. -/
def footer2Core : RE :=
  reSeq [reLit "Page".toList, rePlus isPySpace, rePlus isDigitCh, rePlus isPySpace,
    reLit "of".toList, rePlus isPySpace, rePlus isDigitCh, .starG isPySpace]

/-- The second footer pattern `^Page\s+\d+\s+of\s+\d+\s*$`. -/
def footer2RE : RE := .seq footer2Core .eol

/-- Pattern `account_header_pattern`: `^(\d{1,3}-\d{4})\s+(.*)$`. -/
def accountHeaderRE : RE :=
  .seq (reSeq [.group 1 (reSeq [reDigit13, .chr '-', reDigit4]), rePlus isPySpace,
    .group 2 (.starG isAnyCh)]) .eol

/-- Pattern `beginning_balance_pattern`: `Beginning Balance:\s*\$?([\d,.\-]+)`. -/
def beginningBalanceRE : RE :=
  reSeq [reLit "Beginning Balance:".toList, .starG isPySpace, reDollar,
    .group 1 (rePlus isAmtCh)]

/-- Pattern `total_line_pattern`:
`Total:\s*\$?([\d,.\-]+)\s+\$?([\d,.\-]+)\s+\$?([\d,.\-]+)\s+\$?([\d,.\-]+)`. -/
def totalLineRE : RE :=
  reSeq [reLit "Total:".toList, .starG isPySpace, reDollar, .group 1 (rePlus isAmtCh),
    rePlus isPySpace, reDollar, .group 2 (rePlus isAmtCh),
    rePlus isPySpace, reDollar, .group 3 (rePlus isAmtCh),
    rePlus isPySpace, reDollar, .group 4 (rePlus isAmtCh)]

/-- Pattern `transaction_pattern`:
`^(TRX\d{4})([A-Z]{2})\s+(\d{1,2}/\d{1,2}/\d{4})\s+(.*?)\s+\$?([\d,.\-]+)\s+\$?([\d,.\-]+)\s+(\S+)\s+\$?([\d,.\-]+)\s+\$?([\d,.\-]+)$`. -/
def transactionRE : RE :=
  .seq (reSeq [
    .group 1 (.seq (reLit "TRX".toList) reDigit4),
    .group 2 (.seq (.cls isUpperAZ) (.cls isUpperAZ)),
    rePlus isPySpace,
    .group 3 (reSeq [reDigit12, .chr '/', reDigit12, .chr '/', reDigit4]),
    rePlus isPySpace,
    .group 4 (.starL isAnyCh),
    rePlus isPySpace, reDollar, .group 5 (rePlus isAmtCh),
    rePlus isPySpace, reDollar, .group 6 (rePlus isAmtCh),
    rePlus isPySpace, .group 7 (rePlus isNonSpaceCh),
    rePlus isPySpace, reDollar, .group 8 (rePlus isAmtCh),
    rePlus isPySpace, reDollar, .group 9 (rePlus isAmtCh)]) .eol

/-- Tests whether `as` is a prefix of `bs` (character lists). -/
def isPrefixCh : List Char → List Char → Bool
  | [], _ => true
  | _ :: _, [] => false
  | a :: as, b :: bs => a = b && isPrefixCh as bs

/-- Python's `needle in haystack` substring test. -/
def containsSub (needle : List Char) : List Char → Bool
  | [] => isPrefixCh needle []
  | h :: hs => isPrefixCh needle (h :: hs) || containsSub needle hs

/-- Python's `str.split("\n")`: `""` yields `[""]`, separators at the ends
yield empty pieces. -/
def splitNL : List Char → List (List Char)
  | [] => [[]]
  | c :: cs =>
    if c = '\n' then [] :: splitNL cs
    else
      match splitNL cs with
      | [] => [[c]]
      | l :: ls => (c :: l) :: ls

/-- Python's `str.strip()` (ASCII whitespace). -/
def pyStrip (s : String) : String :=
  String.mk (((s.toList.dropWhile isPySpace).reverse.dropWhile isPySpace).reverse)

/-- Branch 1 of `_process_line`: the line matches one of the two footer
patterns (`re.match`). -/
def isFooterLine (line : String) : Bool :=
  (matchRe footer1RE line.toList).isSome || (matchRe footer2RE line.toList).isSome

/-- The `header_tokens` list of `_process_line`, verbatim. -/
def headerTokens : List String :=
  ["Created:", "General Ledger", "Test Company", "Test Street", "ABN:", "Email:", "To "]

/-- Branch 2 guard: `any(token in line for token in header_tokens)`. -/
def hasBannerToken (line : String) : Bool :=
  headerTokens.any (fun t => containsSub t.toList line.toList)

/-- Source `account_header_pattern.match(line)`, returning groups 1 and 2. -/
def accountHeaderMatch (line : String) : Option (String × String) :=
  match matchRe accountHeaderRE line.toList with
  | none => none
  | some caps =>
    match capsFind 1 caps, capsFind 2 caps with
    | some g1, some g2 => some (String.mk g1, String.mk g2)
    | _, _ => none

/-- Source `beginning_balance_pattern.search(line)`, returning group 1. -/
def beginningBalanceMatch (line : String) : Option String :=
  match searchRe beginningBalanceRE line.toList with
  | none => none
  | some caps =>
    match capsFind 1 caps with
    | some g1 => some (String.mk g1)
    | none => none

/-- Source `"Total:" in line`, the branch 6 guard. -/
def hasTotalLabel (line : String) : Bool := containsSub "Total:".toList line.toList

/-- Source `total_line_pattern.search(line)`, returning groups 1–4. -/
def totalMatch (line : String) : Option (String × String × String × String) :=
  match searchRe totalLineRE line.toList with
  | none => none
  | some caps =>
    match capsFind 1 caps, capsFind 2 caps, capsFind 3 caps, capsFind 4 caps with
    | some g1, some g2, some g3, some g4 =>
      some (String.mk g1, String.mk g2, String.mk g3, String.mk g4)
    | _, _, _, _ => none

/-- The nine capture groups of `transaction_pattern`, in source order. -/
structure TxnCaps where
  trans_id : String
  src : String
  date : String
  memo : String
  debit : String
  credit : String
  job_no : String
  net_activity : String
  ending_balance : String
deriving Repr, DecidableEq

/-- Source `transaction_pattern.match(line)`, returning groups 1–9 (`memo` not yet
stripped; `_process_line` strips it when building the record). -/
def txnMatch (line : String) : Option TxnCaps :=
  match matchRe transactionRE line.toList with
  | none => none
  | some caps =>
    match capsFind 1 caps, capsFind 2 caps, capsFind 3 caps, capsFind 4 caps,
      capsFind 5 caps, capsFind 6 caps, capsFind 7 caps, capsFind 8 caps,
      capsFind 9 caps with
    | some g1, some g2, some g3, some g4, some g5, some g6, some g7, some g8, some g9 =>
      some ⟨String.mk g1, String.mk g2, String.mk g3, String.mk g4, String.mk g5,
        String.mk g6, String.mk g7, String.mk g8, String.mk g9⟩
    | _, _, _, _, _, _, _, _, _ => none

/-- A transaction record, the dict built in branch 5 of `_process_line`.
`account_id` is a plain string because the branch only fires when
`current_account_id is not None`; `account_desc` is copied unguarded. -/
structure Transaction where
  account_id : String
  account_desc : Option String
  trans_id : String
  src : String
  date : String
  memo : String
  debit : String
  credit : String
  job_no : String
  net_activity : String
  ending_balance : String
deriving Repr, DecidableEq

/-- A summary record, the dict built in `_flush_account`.  Fields copied
from the context keep the `Option` of the attribute they copy. -/
structure AccountSummary where
  account_id : Option String
  account_desc : Option String
  beginning_balance : Option String
  total_debit : String
  total_credit : String
  total_net_activity : String
  total_ending_balance : Option String
deriving Repr, DecidableEq

/-- The mutable attributes of `LedgerParser` set in `__init__` (the parser
context of the spec).  The source has no other per-parse state — in
particular no per-page field. -/
structure ParserState where
  transactions : List Transaction
  summary : List AccountSummary
  current_account_id : Option String
  current_account_desc : Option String
  current_beginning_balance : Option String
  header_lines : List String
deriving Repr, DecidableEq

/-- The state `__init__` builds: empty lists, `None` context. -/
def initState : ParserState := ⟨[], [], none, none, none, []⟩

namespace LedgerParser

/-- Source `_flush_account(zero_totals, debit, credit, net, ending)`: append one
summary entry for the current context, then reset the context.  In the
non-zero branch `total_ending_balance` is `ending if ending else
current_beginning_balance`. -/
def flushAccount (st : ParserState) (zero_totals : Bool)
    (debit credit net ending : String) : ParserState :=
  let entry : AccountSummary :=
    if zero_totals then
      ⟨st.current_account_id, st.current_account_desc, st.current_beginning_balance,
        "0.00", "0.00", "0.00", st.current_beginning_balance⟩
    else
      ⟨st.current_account_id, st.current_account_desc, st.current_beginning_balance,
        debit, credit, net,
        if ending ≠ "" then some ending else st.current_beginning_balance⟩
  { st with
    summary := st.summary ++ [entry],
    current_account_id := none,
    current_account_desc := none,
    current_beginning_balance := none }

/-- Source `_flush_account(zero_totals=True)` with the source's default arguments
`debit="0.00", credit="0.00", net="0.00", ending=""`. -/
def flushZero (st : ParserState) : ParserState :=
  flushAccount st true "0.00" "0.00" "0.00" ""

/-- The six classification branches of `_process_line`, in source order. -/
inductive Branch where
  | footer
  | banner
  | accountHeader
  | beginningBalance
  | transaction
  | total
deriving Repr, DecidableEq

/-- Source `_process_line`, instrumented: returns the branch whose handler the line
reached (the `return` that ended the call, `none` when control fell off the
end) together with the updated state.  The structure mirrors the source's
early returns. -/
def processLineB (st : ParserState) (line : String) : Option Branch × ParserState :=
  if isFooterLine line then (some .footer, st)
  else if hasBannerToken line then
    if line ∈ st.header_lines then (some .banner, st)
    else (some .banner, { st with header_lines := st.header_lines ++ [line] })
  else
    match accountHeaderMatch line with
    | some (acctId, acctDesc) =>
      let st1 := if st.current_account_id.isSome then flushZero st else st
      (some .accountHeader,
        { st1 with current_account_id := some acctId, current_account_desc := some acctDesc })
    | none =>
      match beginningBalanceMatch line with
      | some b => (some .beginningBalance, { st with current_beginning_balance := some b })
      | none =>
        match txnMatch line, st.current_account_id with
        | some f, some acctId =>
          (some .transaction,
            { st with transactions := st.transactions ++
              [⟨acctId, st.current_account_desc, f.trans_id, f.src, f.date,
                pyStrip f.memo, f.debit, f.credit, f.job_no, f.net_activity,
                f.ending_balance⟩] })
        | _, _ =>
          if hasTotalLabel line then
            match totalMatch line, st.current_account_id with
            | some (d, c, n, e), some _ => (some .total, flushAccount st false d c n e)
            | _, _ => (some .total, st)
          else (none, st)

/-- Source `_process_line` proper: the state update. -/
def processLine (st : ParserState) (line : String) : ParserState :=
  (processLineB st line).2

/-- The branch whose handler processed the line. -/
def firedBranch (st : ParserState) (line : String) : Option Branch :=
  (processLineB st line).1

/-- The first branch, in source order, whose pattern matches the line —
the classification order claimed by the spec, ignoring the account-context
condition of the transaction branch. -/
def earliestBranch (line : String) : Option Branch :=
  if isFooterLine line then some .footer
  else if hasBannerToken line then some .banner
  else if (accountHeaderMatch line).isSome then some .accountHeader
  else if (beginningBalanceMatch line).isSome then some .beginningBalance
  else if (txnMatch line).isSome then some .transaction
  else if hasTotalLabel line then some .total
  else none

/-- The id captured by a line that the classifier handles as an account
header: the line is not a footer, contains no banner token, and matches
`account_header_pattern`. -/
def headerFired (line : String) : Option String :=
  if isFooterLine line then none
  else if hasBannerToken line then none
  else (accountHeaderMatch line).map Prod.fst

/-- Fold `_process_line` over a list of lines. -/
def processLines (st : ParserState) (ls : List String) : ParserState :=
  ls.foldl processLine st

/-- Lines contributed by one page in `parse`: `page.extract_text()` is either
`None` or a text; `if not text: continue` also skips the empty text, otherwise
the text is split on `"\n"`. -/
def pageLines : Option String → List String
  | none => []
  | some t => if t = "" then [] else (splitNL t.toList).map String.mk

/-- The body of the page loop of `parse`. -/
def processPage (st : ParserState) (page : Option String) : ParserState :=
  processLines st (pageLines page)

/-- The page loop of `parse` run from the fresh `__init__` state. -/
def parsePages (pages : List (Option String)) : ParserState :=
  pages.foldl processPage initState

/-- The final flush of `parse`: if an account is still active, record it
with zero totals. -/
def parseFinal (st : ParserState) : ParserState :=
  if st.current_account_id.isSome then flushZero st else st

/-- Source `LedgerParser.parse`: returns `(transactions, summary)`. -/
def parse (pages : List (Option String)) : List Transaction × List AccountSummary :=
  let st := parseFinal (parsePages pages)
  (st.transactions, st.summary)

end LedgerParser

/-- Source `ExcelWriter.write`: refuses empty inputs with a `ValueError` (modelled
as `Except.error` carrying the message), otherwise produces the workbook —
modelled as its two sheets, `Details` holding the transaction rows and
`Summary` the summary rows, in order.  The error is raised before any file
output exists. -/
def ExcelWriter.write (transactions : List Transaction)
    (summary : List AccountSummary) :
    Except String (List Transaction × List AccountSummary) :=
  if transactions = [] then .error "No transactions data provided."
  else if summary = [] then .error "No summary data provided."
  else .ok (transactions, summary)

/-- Every character a run of the regex can consume satisfies `P`.  Used to
show that lines matched by the footer patterns cannot contain a banner
token. -/
inductive REchars (P : Char → Bool) : RE → Prop where
  | eps : REchars P .eps
  | chr {c : Char} : P c = true → REchars P (.chr c)
  | cls {p : Char → Bool} : (∀ c, p c = true → P c = true) → REchars P (.cls p)
  | seq {a b : RE} : REchars P a → REchars P b → REchars P (.seq a b)
  | opt {a : RE} : REchars P a → REchars P (.opt a)
  | starG {p : Char → Bool} : (∀ c, p c = true → P c = true) → REchars P (.starG p)
  | starL {p : Char → Bool} : (∀ c, p c = true → P c = true) → REchars P (.starL p)
  | eol : REchars P .eol
  | group {i : Nat} {a : RE} : REchars P a → REchars P (.group i a)

/-- The characters the two footer patterns can consume: digits, whitespace,
and the characters of their literal parts. -/
def footerChar (c : Char) : Bool :=
  isDigitCh c || isPySpace c ||
    c ∈ ['*', 'Y', 'e', 'a', 'r', '-', 'E', 'n', 'd', 'A', 'j', 'u', 's', 't', 'm',
      'P', 'g', 'o', 'f']

open LedgerParser

/-! ## Sanity checks: the embedding reproduces the spec's end-to-end scenarios -/

/-- Spec §8, end-to-end scenario 1: one page with a header, a beginning
balance, one transaction and a totals line. -/
theorem sanity_scenario1 :
    parse [some "1-2210 Cash Account\nBeginning Balance: $1000.00\nTRX0001AB 1/1/2020 memo $1.00 $2.00 j7 $3.00 $4.00\nTotal: $500.00 $0.00 $500.00 $1500.00"] =
      ([⟨"1-2210", some "Cash Account", "TRX0001", "AB", "1/1/2020", "memo",
          "1.00", "2.00", "j7", "3.00", "4.00"⟩],
        [⟨some "1-2210", some "Cash Account", some "1000.00",
          "500.00", "0.00", "500.00", some "1500.00"⟩]) := by
  rfl

/-- Spec §8, end-to-end scenario 2: header and beginning balance, nothing
else — zero totals with the beginning balance as ending balance. -/
theorem sanity_scenario2 :
    parse [some "1-2210 Cash Account\nBeginning Balance: $1000.00"] =
      ([], [⟨some "1-2210", some "Cash Account", some "1000.00",
        "0.00", "0.00", "0.00", some "1000.00"⟩]) := by
  rfl

/-! ## C7: the writer rejects empty inputs -/

/-- C7: `ExcelWriter.write` fails with a caller-visible usage error (the
`ValueError`, modelled as `Except.error`) whenever the transaction
collection or the summary collection is empty; the error is returned before
any workbook is produced, so no output exists in that case. -/
theorem claim_C7 (transactions : List Transaction) (summary : List AccountSummary)
    (h : transactions = [] ∨ summary = []) :
    ∃ msg, ExcelWriter.write transactions summary = Except.error msg := by
  rcases h with h | h
  · exact ⟨"No transactions data provided.", by simp [ExcelWriter.write, h]⟩
  · by_cases ht : transactions = []
    · exact ⟨"No transactions data provided.", by simp [ExcelWriter.write, ht]⟩
    · exact ⟨"No summary data provided.", by simp [ExcelWriter.write, ht, h]⟩

/-- Witness for C7 at the empty collections. -/
theorem claim_C7_witness :
    ∃ msg, ExcelWriter.write [] [] = Except.error msg :=
  claim_C7 [] [] (Or.inl rfl)

/-! ## C6: the per-line step is total and unmatched lines are no-ops -/

/-- C6: `processLine` is a total function of the state and the line (it is
defined for every input, mirroring that `_process_line` raises for none),
and a line matching none of the recognized shapes leaves the state — the
transaction list, the summary list and the account context — unchanged. -/
theorem claim_C6 (st : ParserState) (line : String)
    (h1 : isFooterLine line = false)
    (h2 : hasBannerToken line = false)
    (h3 : accountHeaderMatch line = none)
    (h4 : beginningBalanceMatch line = none)
    (h5 : txnMatch line = none)
    (h6 : hasTotalLabel line = false) :
    processLine st line = st := by
  simp [processLine, processLineB, h1, h2, h3, h4, h5, h6]

/-- Witness for C6 at a concrete unmatched line. -/
theorem claim_C6_witness :
    processLine initState "some incidental noise" = initState :=
  claim_C6 initState "some incidental noise"
    (by decide) (by decide) (by decide) (by decide) (by decide) (by decide)

/-! ## Engine lemmas: characters consumed by a match -/

theorem orElse_eq_some_cases {α : Type} {x y : Option α} {r : α}
    (h : (x <|> y) = some r) : x = some r ∨ (x = none ∧ y = some r) := by
  cases x with
  | none => exact Or.inr ⟨rfl, by simpa using h⟩
  | some v => exact Or.inl (by simpa using h)

theorem starClsG_chars {P p : Char → Bool} (hp : ∀ c, p c = true → P c = true) :
    ∀ (s : List Char) (caps : Caps) (k : List Char → Caps → Option Caps) (r : Caps),
      starClsG p s caps k = some r →
      ∃ t s₂, s = t ++ s₂ ∧ (∀ c ∈ t, P c = true) ∧ k s₂ caps = some r := by
  intro s
  induction s with
  | nil =>
    intro caps k r h
    exact ⟨[], [], rfl, by simp, by simpa [starClsG] using h⟩
  | cons c cs ih =>
    intro caps k r h
    simp only [starClsG] at h
    by_cases hc : p c = true
    · rw [if_pos hc] at h
      rcases orElse_eq_some_cases h with h' | ⟨_, h'⟩
      · obtain ⟨t, s₂, hs, ht, hk⟩ := ih caps k r h'
        exact ⟨c :: t, s₂, by simp [hs], by
          intro x hx
          rcases List.mem_cons.mp hx with rfl | hx
          · exact hp x hc
          · exact ht x hx, hk⟩
      · exact ⟨[], c :: cs, rfl, by simp, h'⟩
    · rw [if_neg hc] at h
      exact ⟨[], c :: cs, rfl, by simp, h⟩

theorem starClsL_chars {P p : Char → Bool} (hp : ∀ c, p c = true → P c = true) :
    ∀ (s : List Char) (caps : Caps) (k : List Char → Caps → Option Caps) (r : Caps),
      starClsL p s caps k = some r →
      ∃ t s₂, s = t ++ s₂ ∧ (∀ c ∈ t, P c = true) ∧ k s₂ caps = some r := by
  intro s
  induction s with
  | nil =>
    intro caps k r h
    simp only [starClsL] at h
    rcases orElse_eq_some_cases h with h' | ⟨_, h'⟩
    · exact ⟨[], [], rfl, by simp, h'⟩
    · exact absurd h' (by simp)
  | cons c cs ih =>
    intro caps k r h
    simp only [starClsL] at h
    rcases orElse_eq_some_cases h with h' | ⟨_, h'⟩
    · exact ⟨[], c :: cs, rfl, by simp, h'⟩
    · by_cases hc : p c = true
      · rw [if_pos hc] at h'
        obtain ⟨t, s₂, hs, ht, hk⟩ := ih caps k r h'
        exact ⟨c :: t, s₂, by simp [hs], by
          intro x hx
          rcases List.mem_cons.mp hx with rfl | hx
          · exact hp x hc
          · exact ht x hx, hk⟩
      · rw [if_neg hc] at h'
        exact absurd h' (by simp)

/-- Any successful run of `mat re` splits the input into a consumed prefix,
all of whose characters the regex's classes allow, and a remainder the
continuation accepted. -/
theorem mat_chars {P : Char → Bool} {re : RE} (hre : REchars P re) :
    ∀ (s : List Char) (caps : Caps) (k : List Char → Caps → Option Caps) (r : Caps),
      mat re s caps k = some r →
      ∃ t s₂ caps₂, s = t ++ s₂ ∧ (∀ c ∈ t, P c = true) ∧ k s₂ caps₂ = some r := by
  induction hre with
  | eps =>
    intro s caps k r h
    exact ⟨[], s, caps, rfl, by simp, by simpa [mat] using h⟩
  | @chr c hc =>
    intro s caps k r h
    cases s with
    | nil => exact absurd h (by simp [mat])
    | cons x xs =>
      simp only [mat] at h
      by_cases hx : x = c
      · rw [if_pos hx] at h
        exact ⟨[x], xs, caps, rfl, by
          intro y hy
          rw [List.mem_singleton] at hy
          rw [hy, hx]
          exact hc, h⟩
      · rw [if_neg hx] at h
        exact absurd h (by simp)
  | @cls p hcls =>
    intro s caps k r h
    cases s with
    | nil => exact absurd h (by simp [mat])
    | cons x xs =>
      simp only [mat] at h
      by_cases hx : p x = true
      · rw [if_pos hx] at h
        exact ⟨[x], xs, caps, rfl, by
          intro y hy
          rw [List.mem_singleton] at hy
          rw [hy]
          exact hcls x hx, h⟩
      · rw [if_neg hx] at h
        exact absurd h (by simp)
  | @seq a b _ _ iha ihb =>
    intro s caps k r h
    simp only [mat] at h
    obtain ⟨t₁, s₁, c₁, hs₁, ht₁, hk₁⟩ := iha s caps _ r h
    obtain ⟨t₂, s₂, c₂, hs₂, ht₂, hk₂⟩ := ihb s₁ c₁ k r hk₁
    refine ⟨t₁ ++ t₂, s₂, c₂, by simp [hs₁, hs₂], ?_, hk₂⟩
    intro x hx
    rcases List.mem_append.mp hx with hx | hx
    · exact ht₁ x hx
    · exact ht₂ x hx
  | @opt a _ iha =>
    intro s caps k r h
    simp only [mat] at h
    rcases orElse_eq_some_cases h with h' | ⟨_, h'⟩
    · exact iha s caps k r h'
    · exact ⟨[], s, caps, rfl, by simp, h'⟩
  | @starG p hp =>
    intro s caps k r h
    simp only [mat] at h
    obtain ⟨t, s₂, hs, ht, hk⟩ := starClsG_chars hp s caps k r h
    exact ⟨t, s₂, caps, hs, ht, hk⟩
  | @starL p hp =>
    intro s caps k r h
    simp only [mat] at h
    obtain ⟨t, s₂, hs, ht, hk⟩ := starClsL_chars hp s caps k r h
    exact ⟨t, s₂, caps, hs, ht, hk⟩
  | eol =>
    intro s caps k r h
    cases s with
    | nil => exact ⟨[], [], caps, rfl, by simp, by simpa [mat] using h⟩
    | cons x xs => exact absurd h (by simp [mat])
  | @group i a _ iha =>
    intro s caps k r h
    simp only [mat] at h
    obtain ⟨t, s₂, c₂, hs, ht, hk⟩ := iha s caps _ r h
    exact ⟨t, s₂, (i, s.take (s.length - s₂.length)) :: c₂, hs, ht, hk⟩

theorem REchars_reLit {P : Char → Bool} {l : List Char} (h : ∀ c ∈ l, P c = true) :
    REchars P (reLit l) := by
  induction l with
  | nil => exact REchars.eps
  | cons c cs ih =>
    exact REchars.seq (REchars.chr (h c (by simp)))
      (ih (fun x hx => h x (by simp [hx])))

theorem REchars_reSeq {P : Char → Bool} {rs : List RE} (h : ∀ r ∈ rs, REchars P r) :
    REchars P (reSeq rs) := by
  induction rs with
  | nil => exact REchars.eps
  | cons r rs ih =>
    exact REchars.seq (h r (by simp)) (ih (fun x hx => h x (by simp [hx])))

theorem REchars_rePlus {P p : Char → Bool} (h : ∀ c, p c = true → P c = true) :
    REchars P (rePlus p) :=
  REchars.seq (REchars.cls h) (REchars.starG h)

theorem isPySpace_footerChar : ∀ c, isPySpace c = true → footerChar c = true := by
  intro c hc
  simp [footerChar, hc]

theorem isDigitCh_footerChar : ∀ c, isDigitCh c = true → footerChar c = true := by
  intro c hc
  simp [footerChar, hc]

theorem footer1Core_chars : REchars footerChar footer1Core := by
  unfold footer1Core
  apply REchars_reSeq
  intro r hr
  simp only [List.mem_cons, List.not_mem_nil, or_false] at hr
  rcases hr with rfl | rfl | rfl | rfl
  · exact REchars.chr (by decide)
  · exact REchars.starG isPySpace_footerChar
  · exact REchars_reLit (by decide)
  · exact REchars.starG isPySpace_footerChar

theorem footer2Core_chars : REchars footerChar footer2Core := by
  unfold footer2Core
  apply REchars_reSeq
  intro r hr
  simp only [List.mem_cons, List.not_mem_nil, or_false] at hr
  rcases hr with rfl | rfl | rfl | rfl | rfl | rfl | rfl | rfl
  · exact REchars_reLit (by decide)
  · exact REchars_rePlus isPySpace_footerChar
  · exact REchars_rePlus isDigitCh_footerChar
  · exact REchars_rePlus isPySpace_footerChar
  · exact REchars_reLit (by decide)
  · exact REchars_rePlus isPySpace_footerChar
  · exact REchars_rePlus isDigitCh_footerChar
  · exact REchars.starG isPySpace_footerChar

/-- A line matched by a footer pattern (which ends in `$`) consists entirely
of footer characters. -/
theorem footer_chars {line : String} (h : isFooterLine line = true) :
    ∀ c ∈ line.toList, footerChar c = true := by
  have main : ∀ (core : RE), REchars footerChar core →
      ∀ caps, matchRe (.seq core .eol) line.toList = some caps →
      ∀ c ∈ line.toList, footerChar c = true := by
    intro core hcore caps hm c hc
    have hm' : mat core line.toList []
        (fun s' caps' => mat .eol s' caps' (fun _ caps'' => some caps'')) = some caps := hm
    obtain ⟨t, s₂, c₂, hs, ht, hk⟩ := mat_chars hcore line.toList _ _ caps hm'
    cases s₂ with
    | nil =>
      rw [hs, List.append_nil] at hc
      exact ht c hc
    | cons z zs => exact absurd hk (by simp [mat])
  simp only [isFooterLine, Bool.or_eq_true, Option.isSome_iff_exists] at h
  rcases h with ⟨caps, hm⟩ | ⟨caps, hm⟩
  · exact main footer1Core footer1Core_chars caps hm
  · exact main footer2Core footer2Core_chars caps hm

theorem isPrefixCh_mem {n h : List Char} (hp : isPrefixCh n h = true) :
    ∀ c ∈ n, c ∈ h := by
  induction n generalizing h with
  | nil => simp
  | cons a as ih =>
    cases h with
    | nil => exact absurd hp (by simp [isPrefixCh])
    | cons b bs =>
      simp only [isPrefixCh, Bool.and_eq_true, decide_eq_true_eq] at hp
      intro c hc
      rcases List.mem_cons.mp hc with rfl | hc
      · simp [hp.1]
      · exact List.mem_cons_of_mem b (ih hp.2 c hc)

theorem containsSub_mem {n h : List Char} (hc : containsSub n h = true) :
    ∀ c ∈ n, c ∈ h := by
  induction h with
  | nil =>
    cases n with
    | nil => simp
    | cons a as => exact absurd hc (by simp [containsSub, isPrefixCh])
  | cons x xs ih =>
    simp only [containsSub, Bool.or_eq_true] at hc
    rcases hc with hc | hc
    · exact isPrefixCh_mem hc
    · exact fun c hcn => List.mem_cons_of_mem x (ih hc c hcn)

/-- Lines matched by a footer pattern contain no banner token: the footer
and repeated-banner branches of `_process_line` are disjoint. -/
theorem banner_not_footer {line : String} (h : hasBannerToken line = true) :
    isFooterLine line = false := by
  by_contra hf
  rw [Bool.not_eq_false] at hf
  have hgood := footer_chars hf
  simp only [hasBannerToken, List.any_eq_true] at h
  obtain ⟨tok, htok, hsub⟩ := h
  have hmem := containsSub_mem hsub
  simp only [headerTokens, List.mem_cons, List.not_mem_nil, or_false] at htok
  rcases htok with rfl | rfl | rfl | rfl | rfl | rfl | rfl
  · exact absurd (hgood ':' (hmem ':' (by decide))) (by decide)
  · exact absurd (hgood 'G' (hmem 'G' (by decide))) (by decide)
  · exact absurd (hgood 'T' (hmem 'T' (by decide))) (by decide)
  · exact absurd (hgood 'T' (hmem 'T' (by decide))) (by decide)
  · exact absurd (hgood ':' (hmem ':' (by decide))) (by decide)
  · exact absurd (hgood ':' (hmem ':' (by decide))) (by decide)
  · exact absurd (hgood 'T' (hmem 'T' (by decide))) (by decide)

/-! ## C8: banner lines are captured once and never touch records or context -/

/-- C8: for every line containing a banner marker substring, the first
occurrence is appended to the captured header state and a repeated identical
line is discarded; in both cases the transaction list, the summary list and
the open account context are unchanged.  (Such a line never matches a footer
pattern, by `banner_not_footer`, so the banner branch always handles it.) -/
theorem claim_C8 (st : ParserState) (line : String)
    (h : hasBannerToken line = true) :
    (line ∈ st.header_lines → processLine st line = st) ∧
    (line ∉ st.header_lines →
      processLine st line = { st with header_lines := st.header_lines ++ [line] }) ∧
    (processLine st line).transactions = st.transactions ∧
    (processLine st line).summary = st.summary ∧
    (processLine st line).current_account_id = st.current_account_id ∧
    (processLine st line).current_account_desc = st.current_account_desc ∧
    (processLine st line).current_beginning_balance = st.current_beginning_balance := by
  have hf : isFooterLine line = false := banner_not_footer h
  by_cases hm : line ∈ st.header_lines <;>
    simp [processLine, processLineB, hf, h, hm]

/-- Witness for C8: a banner line is captured on first sight and discarded
on repetition, with no other state change. -/
theorem claim_C8_witness :
    processLine initState "Created: 01/01/2020 10:00" =
      { initState with header_lines := ["Created: 01/01/2020 10:00"] } ∧
    processLine ⟨[], [], none, none, none, ["Created: 01/01/2020 10:00"]⟩
        "Created: 01/01/2020 10:00" =
      ⟨[], [], none, none, none, ["Created: 01/01/2020 10:00"]⟩ :=
  ⟨(claim_C8 initState "Created: 01/01/2020 10:00" (by decide)).2.1 (by decide),
    (claim_C8 ⟨[], [], none, none, none, ["Created: 01/01/2020 10:00"]⟩
      "Created: 01/01/2020 10:00" (by decide)).1 (by decide)⟩

/-! ## C1: classification order -/

/-- C1 fails as stated: for this line the transaction pattern is the
earliest matching branch pattern, yet with no open account context no branch
fires at all — `_process_line` falls through every branch and returns having
done nothing, so neither does "exactly one branch fire" nor does the
earliest matching branch handle the line. -/
theorem claim_C1_counterexample :
    earliestBranch "TRX0001AB 1/1/2020 memo $1.00 $2.00 j7 $3.00 $4.00" =
      some Branch.transaction ∧
    firedBranch initState "TRX0001AB 1/1/2020 memo $1.00 $2.00 j7 $3.00 $4.00" =
      none := by
  exact ⟨rfl, rfl⟩

/-- C1 amended: at most one branch fires per line, and it is the earliest
branch whose pattern matches — except that a line matching the transaction
pattern while no account context is open is not handled by the transaction
branch: it falls through to the totals branch when it contains the totals
label and otherwise fires no branch. -/
theorem claim_C1_amended (st : ParserState) (line : String) :
    firedBranch st line =
      if earliestBranch line = some Branch.transaction ∧ st.current_account_id = none
      then (if hasTotalLabel line then some Branch.total else none)
      else earliestBranch line := by
  unfold firedBranch processLineB earliestBranch
  by_cases h1 : isFooterLine line = true
  · simp [h1]
  · rw [Bool.not_eq_true] at h1
    by_cases h2 : hasBannerToken line = true
    · by_cases hm : line ∈ st.header_lines <;> simp [h1, h2, hm]
    · rw [Bool.not_eq_true] at h2
      cases h3 : accountHeaderMatch line with
      | some pr =>
        cases pr with
        | mk a d => simp [h1, h2, h3]
      | none =>
        cases h4 : beginningBalanceMatch line with
        | some b => simp [h1, h2, h3, h4]
        | none =>
          cases h5 : txnMatch line with
          | some f =>
            cases hid : st.current_account_id with
            | some a => simp [h1, h2, h3, h4, h5, hid]
            | none =>
              by_cases h6 : hasTotalLabel line = true
              · cases h7 : totalMatch line with
                | some q => simp [h1, h2, h3, h4, h5, hid, h6, h7]
                | none => simp [h1, h2, h3, h4, h5, hid, h6, h7]
              · rw [Bool.not_eq_true] at h6
                simp [h1, h2, h3, h4, h5, hid, h6]
          | none =>
            by_cases h6 : hasTotalLabel line = true
            · cases h7 : totalMatch line with
              | some q =>
                cases hid : st.current_account_id with
                | some a => simp [h1, h2, h3, h4, h5, hid, h6, h7]
                | none => simp [h1, h2, h3, h4, h5, hid, h6, h7]
              | none =>
                cases hid : st.current_account_id with
                | some a => simp [h1, h2, h3, h4, h5, hid, h6, h7]
                | none => simp [h1, h2, h3, h4, h5, hid, h6, h7]
            · rw [Bool.not_eq_true] at h6
              simp [h1, h2, h3, h4, h5, h6]

/-! ## C5: totals lines close the open account -/

/-- C5 fails as stated: this line contains the totals label followed by four
decimal amounts and the account context is open, yet the beginning-balance
branch matches earlier and handles the line, so no summary is appended and
the context is not cleared. -/
theorem claim_C5_counterexample :
    hasTotalLabel "Beginning Balance: 1 Total: $1.00 $2.00 $3.00 $4.00" = true ∧
    totalMatch "Beginning Balance: 1 Total: $1.00 $2.00 $3.00 $4.00" =
      some ("1.00", "2.00", "3.00", "4.00") ∧
    processLine ⟨[], [], some "1-0001", some "Cash", some "5.00", []⟩
        "Beginning Balance: 1 Total: $1.00 $2.00 $3.00 $4.00" =
      ⟨[], [], some "1-0001", some "Cash", some "1", []⟩ := by
  exact ⟨rfl, rfl, rfl⟩

/-- C5 amended: when an account context is open and the line reaches the
totals check — it matches none of the earlier branches (footer, banner
token, account header, beginning balance, transaction) — a line containing
the totals label followed by four captured amounts appends exactly one
summary holding those four amounts (the currency marker is not part of the
captures) and clears the whole account context.  The captured amounts are
drawn from `[\d,.\-]+` and hence never empty; the hypothesis `he` records
that for the fourth capture. -/
theorem claim_C5_amended (st : ParserState) (line : String) (d c n e a : String)
    (h1 : isFooterLine line = false)
    (h2 : hasBannerToken line = false)
    (h3 : accountHeaderMatch line = none)
    (h4 : beginningBalanceMatch line = none)
    (h5 : txnMatch line = none)
    (h6 : hasTotalLabel line = true)
    (h7 : totalMatch line = some (d, c, n, e))
    (he : e ≠ "")
    (ha : st.current_account_id = some a) :
    processLine st line =
      { st with
        summary := st.summary ++
          [⟨some a, st.current_account_desc, st.current_beginning_balance,
            d, c, n, some e⟩],
        current_account_id := none,
        current_account_desc := none,
        current_beginning_balance := none } := by
  simp [processLine, processLineB, h1, h2, h3, h4, h5, h6, h7, ha,
    flushAccount, he]

/-- Witness for C5 amended at spec scenario 1's totals line. -/
theorem claim_C5_amended_witness :
    processLine ⟨[], [], some "1-2210", some "Cash Account", some "1000.00", []⟩
        "Total: $500.00 $0.00 $500.00 $1500.00" =
      ⟨[], [⟨some "1-2210", some "Cash Account", some "1000.00",
        "500.00", "0.00", "500.00", some "1500.00"⟩], none, none, none, []⟩ :=
  claim_C5_amended ⟨[], [], some "1-2210", some "Cash Account", some "1000.00", []⟩
    "Total: $500.00 $0.00 $500.00 $1500.00"
    "500.00" "0.00" "500.00" "1500.00" "1-2210"
    (by decide) (by decide) (by decide) (by decide) (by decide) (by decide)
    (by decide) (by decide) (by decide)

/-! ## C10: a stray beginning balance leaks into the next account -/

/-- C10: a beginning-balance line processed while no account context is open
still stores its amount in `current_beginning_balance`; the next account
header, since it finds no open context, flushes nothing and does not clear
the stored amount; a zero-totals flush of that account therefore reports the
stray amount as its `beginning_balance` and `total_ending_balance`. -/
theorem claim_C10 (st : ParserState) (l1 l2 : String) (b a d : String)
    (h0 : st.current_account_id = none)
    (ha : isFooterLine l1 = false)
    (hb : hasBannerToken l1 = false)
    (hc : accountHeaderMatch l1 = none)
    (hd : beginningBalanceMatch l1 = some b)
    (he : isFooterLine l2 = false)
    (hf : hasBannerToken l2 = false)
    (hg : accountHeaderMatch l2 = some (a, d)) :
    processLine (processLine st l1) l2 =
      { st with
        current_account_id := some a,
        current_account_desc := some d,
        current_beginning_balance := some b } ∧
    (flushZero { st with
        current_account_id := some a,
        current_account_desc := some d,
        current_beginning_balance := some b }).summary =
      st.summary ++ [⟨some a, some d, some b, "0.00", "0.00", "0.00", some b⟩] := by
  have step1 : processLine st l1 = { st with current_beginning_balance := some b } := by
    simp [processLine, processLineB, ha, hb, hc, hd]
  constructor
  · rw [step1]
    simp [processLine, processLineB, he, hf, hg, h0]
  · simp [flushZero, flushAccount]

/-- Witness for C10: a stray `Beginning Balance:` line before the first
account header. -/
theorem claim_C10_witness :
    processLine (processLine initState "Beginning Balance: $250.00") "1-0001 Cash" =
      { initState with
        current_account_id := some "1-0001",
        current_account_desc := some "Cash",
        current_beginning_balance := some "250.00" } ∧
    (flushZero { initState with
        current_account_id := some "1-0001",
        current_account_desc := some "Cash",
        current_beginning_balance := some "250.00" }).summary =
      initState.summary ++
        [⟨some "1-0001", some "Cash", some "250.00", "0.00", "0.00", "0.00", some "250.00"⟩] :=
  claim_C10 initState "Beginning Balance: $250.00" "1-0001 Cash" "250.00" "1-0001" "Cash"
    (by decide) (by decide) (by decide) (by decide) (by decide) (by decide) (by decide)
    (by decide)

/-! ## C4: zero-totals synthesis for accounts never closed by a totals line -/

/-- C4: an account left open with recorded beginning balance `B` is closed
with the zero/synthetic summary.  First conjunct: the final flush at end of
input appends exactly one summary with zero debit, credit and net activity
and ending balance `B`.  Second conjunct: the forced flush performed when a
new account header arrives while a context is open appends the same
zero/synthetic summary for the open account. -/
theorem claim_C4 :
    (∀ (pages : List (Option String)) (a B : String),
      (parsePages pages).current_account_id = some a →
      (parsePages pages).current_beginning_balance = some B →
      (parse pages).2 = (parsePages pages).summary ++
        [⟨some a, (parsePages pages).current_account_desc, some B,
          "0.00", "0.00", "0.00", some B⟩]) ∧
    (∀ (st : ParserState) (line : String) (a B : String) (pr : String × String),
      st.current_account_id = some a →
      st.current_beginning_balance = some B →
      isFooterLine line = false →
      hasBannerToken line = false →
      accountHeaderMatch line = some pr →
      (processLine st line).summary = st.summary ++
        [⟨some a, st.current_account_desc, some B, "0.00", "0.00", "0.00", some B⟩]) := by
  constructor
  · intro pages a B h1 h2
    simp [parse, parseFinal, h1, h2, flushZero, flushAccount]
  · intro st line a B pr h1 h2 h3 h4 h5
    cases pr with
    | mk x y =>
      simp [processLine, processLineB, h3, h4, h5, h1, h2, flushZero, flushAccount]

/-- Witness for C4: spec scenario 2 (final flush) and two consecutive
headers (forced flush). -/
theorem claim_C4_witness :
    ((parse [some "1-2210 Cash Account\nBeginning Balance: $1000.00"]).2 =
      (parsePages [some "1-2210 Cash Account\nBeginning Balance: $1000.00"]).summary ++
        [⟨some "1-2210",
          (parsePages [some "1-2210 Cash Account\nBeginning Balance: $1000.00"]).current_account_desc,
          some "1000.00", "0.00", "0.00", "0.00", some "1000.00"⟩]) ∧
    ((processLine ⟨[], [], some "1-2210", some "Cash Account", some "1000.00", []⟩
        "1-0002 Savings").summary =
      [⟨some "1-2210", some "Cash Account", some "1000.00",
        "0.00", "0.00", "0.00", some "1000.00"⟩]) :=
  ⟨claim_C4.1 [some "1-2210 Cash Account\nBeginning Balance: $1000.00"] "1-2210" "1000.00"
      (by decide) (by decide),
    claim_C4.2 ⟨[], [], some "1-2210", some "Cash Account", some "1000.00", []⟩
      "1-0002 Savings" "1-2210" "1000.00" ("1-0002", "Savings")
      (by decide) (by decide) (by decide) (by decide) (by decide)⟩

/-! ## Page structure and cross-page state -/

theorem processLines_append (st : ParserState) (xs ys : List String) :
    processLines st (xs ++ ys) = processLines (processLines st xs) ys :=
  List.foldl_append _ _ _ _

/-- The page loop is the fold of `_process_line` over the concatenation of
the pages' lines: `parse` performs no per-page state change whatsoever. -/
theorem pages_flatten (pages : List (Option String)) :
    ∀ st : ParserState,
      pages.foldl processPage st = processLines st (pages.flatMap pageLines) := by
  induction pages with
  | nil => intro st; rfl
  | cons p ps ih =>
    intro st
    rw [List.foldl_cons, ih, List.flatMap_cons, processLines_append]
    rfl

theorem header_lines_step (st : ParserState) (l : String) :
    ∃ new, (processLine st l).header_lines = st.header_lines ++ new := by
  unfold processLine processLineB
  by_cases h1 : isFooterLine l = true
  · exact ⟨[], by simp [h1]⟩
  · by_cases h2 : hasBannerToken l = true
    · by_cases hm : l ∈ st.header_lines
      · exact ⟨[], by simp [h1, h2, hm]⟩
      · exact ⟨[l], by simp [h1, h2, hm]⟩
    · cases h3 : accountHeaderMatch l with
      | some pr =>
        cases pr with
        | mk a d =>
          by_cases hid : st.current_account_id.isSome <;>
            exact ⟨[], by simp [h1, h2, h3, hid, flushZero, flushAccount]⟩
      | none =>
        cases h4 : beginningBalanceMatch l with
        | some b => exact ⟨[], by simp [h1, h2, h3, h4]⟩
        | none =>
          cases h5 : txnMatch l with
          | some f =>
            cases hid : st.current_account_id with
            | some a => exact ⟨[], by simp [h1, h2, h3, h4, h5, hid]⟩
            | none =>
              by_cases h6 : hasTotalLabel l = true
              · cases h7 : totalMatch l with
                | some q =>
                  exact ⟨[], by simp [h1, h2, h3, h4, h5, hid, h6, h7]⟩
                | none => exact ⟨[], by simp [h1, h2, h3, h4, h5, hid, h6, h7]⟩
              · exact ⟨[], by simp [h1, h2, h3, h4, h5, hid, h6]⟩
          | none =>
            by_cases h6 : hasTotalLabel l = true
            · cases h7 : totalMatch l with
              | some q =>
                cases q with
                | mk d q' =>
                  cases hid : st.current_account_id with
                  | some a =>
                    exact ⟨[], by simp [h1, h2, h3, h4, h5, hid, h6, h7, flushAccount]⟩
                  | none => exact ⟨[], by simp [h1, h2, h3, h4, h5, hid, h6, h7]⟩
              | none => exact ⟨[], by simp [h1, h2, h3, h4, h5, h6, h7]⟩
            · exact ⟨[], by simp [h1, h2, h3, h4, h5, h6]⟩

theorem header_lines_lines (ls : List String) :
    ∀ st : ParserState, ∃ new, (processLines st ls).header_lines = st.header_lines ++ new := by
  induction ls with
  | nil => exact fun st => ⟨[], by simp [processLines]⟩
  | cons l ls ih =>
    intro st
    obtain ⟨n1, h1⟩ := header_lines_step st l
    obtain ⟨n2, h2⟩ := ih (processLine st l)
    exact ⟨n1 ++ n2, by
      simp only [processLines, List.foldl_cons] at h2 ⊢
      rw [h2, h1, List.append_assoc]⟩

/-! ## C9: no per-page reset exists -/

/-- C9 fails as stated: the parser has no per-page header-region flag to
reset — `ParserState` carries exactly the attributes `__init__` creates, and
nothing happens at a page boundary.  Concretely, splitting this input at the
page boundary or joining it into one page yields identical parser states in
every component, and the banner-suppression state carries the first page's
banner line across the boundary (which is why the repeated `"Created: x"` of
the second page is discarded). -/
theorem claim_C9_counterexample :
    parsePages [some "Created: x\n1-0001 A", some "Created: x"] =
      parsePages [some "Created: x\n1-0001 A\nCreated: x"] ∧
    (parsePages [some "Created: x\n1-0001 A", some "Created: x"]).header_lines =
      ["Created: x"] := by
  exact ⟨rfl, rfl⟩

/-- C9 amended: the parser performs no per-page state change at all — the
page loop equals the fold of `_process_line` over the concatenation of the
pages' lines — and the banner-suppression state `header_lines` persists
across page boundaries, only ever growing by appended lines. -/
theorem claim_C9_amended :
    (∀ (st : ParserState) (pages : List (Option String)),
      pages.foldl processPage st = processLines st (pages.flatMap pageLines)) ∧
    (∀ (st : ParserState) (ls : List String),
      ∃ new, (processLines st ls).header_lines = st.header_lines ++ new) := by
  exact ⟨fun st pages => pages_flatten pages st, fun st ls => header_lines_lines ls st⟩

/-! ## C2: one summary per account header processed -/

theorem summary_count_step (st : ParserState) (l : String) (a : String) :
    ((processLine st l).summary.countP (fun s => s.account_id == some a)) +
      (if (processLine st l).current_account_id = some a then 1 else 0) =
    (st.summary.countP (fun s => s.account_id == some a)) +
      (if st.current_account_id = some a then 1 else 0) +
      (if headerFired l == some a then 1 else 0) := by
  unfold processLine processLineB headerFired
  by_cases h1 : isFooterLine l = true
  · simp [h1]
  · rw [Bool.not_eq_true] at h1
    by_cases h2 : hasBannerToken l = true
    · by_cases hm : l ∈ st.header_lines <;> simp [h1, h2, hm]
    · rw [Bool.not_eq_true] at h2
      cases h3 : accountHeaderMatch l with
      | some pr =>
        cases pr with
        | mk x y =>
          cases hid : st.current_account_id with
          | some prev =>
            by_cases hxa : x = a <;> by_cases hpa : prev = a <;>
              simp [h1, h2, h3, hid, flushZero, flushAccount,
                List.countP_append, List.countP_cons, hxa, hpa]
          | none => simp [h1, h2, h3, hid]
      | none =>
        cases h4 : beginningBalanceMatch l with
        | some b => simp [h1, h2, h3, h4]
        | none =>
          cases h5 : txnMatch l with
          | some f =>
            cases hid : st.current_account_id with
            | some prev => simp [h1, h2, h3, h4, h5, hid]
            | none =>
              by_cases h6 : hasTotalLabel l = true
              · cases h7 : totalMatch l with
                | some q => simp [h1, h2, h3, h4, h5, hid, h6, h7]
                | none => simp [h1, h2, h3, h4, h5, hid, h6, h7]
              · rw [Bool.not_eq_true] at h6
                simp [h1, h2, h3, h4, h5, hid, h6]
          | none =>
            by_cases h6 : hasTotalLabel l = true
            · cases h7 : totalMatch l with
              | some q =>
                obtain ⟨d, c, n, e⟩ := q
                cases hid : st.current_account_id with
                | some prev =>
                  by_cases hpa : prev = a <;>
                    simp [h1, h2, h3, h4, h5, hid, h6, h7, flushAccount,
                      List.countP_append, List.countP_cons, hpa]
                | none => simp [h1, h2, h3, h4, h5, hid, h6, h7]
              | none => simp [h1, h2, h3, h4, h5, h6, h7]
            · rw [Bool.not_eq_true] at h6
              simp [h1, h2, h3, h4, h5, h6]

theorem summary_count_lines (ls : List String) (a : String) :
    ∀ st : ParserState,
      ((processLines st ls).summary.countP (fun s => s.account_id == some a)) +
        (if (processLines st ls).current_account_id = some a then 1 else 0) =
      (st.summary.countP (fun s => s.account_id == some a)) +
        (if st.current_account_id = some a then 1 else 0) +
        ls.countP (fun l => headerFired l == some a) := by
  induction ls with
  | nil => intro st; simp [processLines]
  | cons l ls ih =>
    intro st
    have hstep := summary_count_step st l a
    have hih := ih (processLine st l)
    simp only [processLines, List.foldl_cons] at hih ⊢
    rw [hih, List.countP_cons]
    omega

/-- C2 fails as stated: the input observes the account header line
`"1-0001 Alpha"`, yet two AccountSummary entries with its `account_id`
appear in the output, because a second header line reuses the same id. -/
theorem claim_C2_counterexample :
    headerFired "1-0001 Alpha" = some "1-0001" ∧
    (parse [some "1-0001 Alpha\n1-0001 Beta"]).2.countP
      (fun s => s.account_id == some "1-0001") = 2 := by
  exact ⟨rfl, rfl⟩

/-- C2 amended: for every account id, the number of AccountSummary entries
with that id in the output equals the number of lines the classifier handled
as an account header capturing that id — every header line observed
contributes exactly one summary (explicit totals, forced flush or final
flush), but several header lines with the same id contribute several
summaries. -/
theorem claim_C2_amended (pages : List (Option String)) (a : String) :
    (parse pages).2.countP (fun s => s.account_id == some a) =
      (pages.flatMap pageLines).countP (fun l => headerFired l == some a) := by
  have hmain := summary_count_lines (pages.flatMap pageLines) a initState
  have hflat : parsePages pages = processLines initState (pages.flatMap pageLines) :=
    pages_flatten pages initState
  have h0 : initState.summary = [] := rfl
  have h0' : initState.current_account_id = none := rfl
  rw [h0, h0'] at hmain
  simp only [List.countP_nil, reduceCtorEq, if_false, Nat.add_zero, Nat.zero_add] at hmain
  rw [show (parse pages).2 = (parseFinal (parsePages pages)).summary from rfl, hflat]
  cases hid : (processLines initState (pages.flatMap pageLines)).current_account_id with
  | some x =>
    rw [hid] at hmain
    unfold parseFinal
    rw [hid]
    simp only [Option.isSome_some, if_true, flushZero, flushAccount,
      List.countP_append, List.countP_cons, hid, List.countP_nil, beq_iff_eq]
    by_cases hxa : x = a
    · subst hxa
      simp at hmain ⊢
      omega
    · simp [hxa] at hmain ⊢
      omega
  | none =>
    rw [hid] at hmain
    unfold parseFinal
    rw [hid]
    simp at hmain ⊢
    omega

/-! ## C3: no orphan transactions -/

/-- One step of `_process_line` either leaves the transaction list unchanged
(with the context unchanged or cleared), opens the account captured by an
account-header line, or appends one transaction owned by the open context. -/
theorem step_cases (st : ParserState) (l : String) :
    ((processLine st l).transactions = st.transactions ∧
      ((processLine st l).current_account_id = st.current_account_id ∨
        (processLine st l).current_account_id = none)) ∨
    (∃ x, headerFired l = some x ∧
      (processLine st l).transactions = st.transactions ∧
      (processLine st l).current_account_id = some x) ∨
    (∃ t0, (processLine st l).transactions = st.transactions ++ [t0] ∧
      st.current_account_id = some t0.account_id ∧
      t0.account_desc = st.current_account_desc ∧
      (processLine st l).current_account_id = st.current_account_id) := by
  unfold processLine processLineB
  by_cases hf1 : isFooterLine l = true
  · exact Or.inl (by simp [hf1])
  · rw [Bool.not_eq_true] at hf1
    by_cases hf2 : hasBannerToken l = true
    · by_cases hm : l ∈ st.header_lines
      · exact Or.inl (by simp [hf1, hf2, hm])
      · exact Or.inl (by simp [hf1, hf2, hm])
    · rw [Bool.not_eq_true] at hf2
      cases hf3 : accountHeaderMatch l with
      | some pr =>
        cases pr with
        | mk x y =>
          refine Or.inr (Or.inl ⟨x, by simp [headerFired, hf1, hf2, hf3], ?_, ?_⟩)
          · by_cases hid : st.current_account_id.isSome <;>
              simp [hf1, hf2, hf3, hid, flushZero, flushAccount]
          · by_cases hid : st.current_account_id.isSome <;>
              simp [hf1, hf2, hf3, hid, flushZero, flushAccount]
      | none =>
        cases hf4 : beginningBalanceMatch l with
        | some b => exact Or.inl (by simp [hf1, hf2, hf3, hf4])
        | none =>
          cases hf5 : txnMatch l with
          | some f =>
            cases hid : st.current_account_id with
            | some prev =>
              refine Or.inr (Or.inr ⟨⟨prev, st.current_account_desc, f.trans_id,
                f.src, f.date, pyStrip f.memo, f.debit, f.credit, f.job_no,
                f.net_activity, f.ending_balance⟩, ?_, by simp [hid], rfl, ?_⟩)
              · simp [hf1, hf2, hf3, hf4, hf5, hid]
              · simp [hf1, hf2, hf3, hf4, hf5, hid]
            | none =>
              by_cases hf6 : hasTotalLabel l = true
              · cases hf7 : totalMatch l with
                | some q => exact Or.inl (by simp [hf1, hf2, hf3, hf4, hf5, hid, hf6, hf7])
                | none => exact Or.inl (by simp [hf1, hf2, hf3, hf4, hf5, hid, hf6, hf7])
              · rw [Bool.not_eq_true] at hf6
                exact Or.inl (by simp [hf1, hf2, hf3, hf4, hf5, hid, hf6])
          | none =>
            by_cases hf6 : hasTotalLabel l = true
            · cases hf7 : totalMatch l with
              | some q =>
                obtain ⟨d, c, n, e⟩ := q
                cases hid : st.current_account_id with
                | some prev =>
                  exact Or.inl (by
                    simp [hf1, hf2, hf3, hf4, hf5, hid, hf6, hf7, flushAccount])
                | none =>
                  exact Or.inl (by simp [hf1, hf2, hf3, hf4, hf5, hid, hf6, hf7])
              | none => exact Or.inl (by simp [hf1, hf2, hf3, hf4, hf5, hf6, hf7])
            · rw [Bool.not_eq_true] at hf6
              exact Or.inl (by simp [hf1, hf2, hf3, hf4, hf5, hf6])

theorem no_orphan_step (st : ParserState) (l : String) (ls : List String)
    (h1 : ∀ t ∈ st.transactions, ∃ x ∈ ls, headerFired x = some t.account_id)
    (h2 : ∀ a, st.current_account_id = some a → ∃ x ∈ ls, headerFired x = some a) :
    (∀ t ∈ (processLine st l).transactions,
      ∃ x ∈ ls ++ [l], headerFired x = some t.account_id) ∧
    (∀ a, (processLine st l).current_account_id = some a →
      ∃ x ∈ ls ++ [l], headerFired x = some a) := by
  have weaken : ∀ a, (∃ x ∈ ls, headerFired x = some a) →
      ∃ x ∈ ls ++ [l], headerFired x = some a := by
    intro a ⟨x, hx, hfx⟩
    exact ⟨x, List.mem_append_left _ hx, hfx⟩
  rcases step_cases st l with ⟨htr, hcur⟩ | ⟨x, hl, htr, hcur⟩ | ⟨t0, htr, hown, _, hcur⟩
  · refine ⟨fun t ht => weaken _ (h1 t (htr ▸ ht)), fun a ha => ?_⟩
    rcases hcur with hcur | hcur
    · exact weaken _ (h2 a (hcur ▸ ha))
    · rw [hcur] at ha
      exact absurd ha (by simp)
  · refine ⟨fun t ht => weaken _ (h1 t (htr ▸ ht)), fun a ha => ?_⟩
    rw [hcur] at ha
    obtain rfl : x = a := by simpa using ha
    exact ⟨l, List.mem_append_right _ (by simp), hl⟩
  · constructor
    · intro t ht
      rw [htr] at ht
      rcases List.mem_append.mp ht with ht | ht
      · exact weaken _ (h1 t ht)
      · obtain rfl : t = t0 := by simpa using ht
        exact weaken _ (h2 t.account_id hown)
    · intro a ha
      rw [hcur] at ha
      exact weaken _ (h2 a ha)

theorem no_orphan_lines (ls : List String) :
    ∀ (st : ParserState) (ls0 : List String),
      (∀ t ∈ st.transactions, ∃ x ∈ ls0, headerFired x = some t.account_id) →
      (∀ a, st.current_account_id = some a → ∃ x ∈ ls0, headerFired x = some a) →
      (∀ t ∈ (processLines st ls).transactions,
        ∃ x ∈ ls0 ++ ls, headerFired x = some t.account_id) ∧
      (∀ a, (processLines st ls).current_account_id = some a →
        ∃ x ∈ ls0 ++ ls, headerFired x = some a) := by
  induction ls with
  | nil =>
    intro st ls0 h1 h2
    simpa [processLines] using ⟨h1, h2⟩
  | cons l ls ih =>
    intro st ls0 h1 h2
    obtain ⟨h1', h2'⟩ := no_orphan_step st l ls0 h1 h2
    have := ih (processLine st l) (ls0 ++ [l]) h1' h2'
    simpa [processLines, List.append_assoc] using this

/-- C3: no transaction in the output has an `account_id` that was not opened
by an account header line processed earlier.  First conjunct: after any
prefix of lines, every recorded transaction's id was captured by a header
line of that prefix (the header therefore precedes the transaction's line).
Second conjunct: whenever a step appends a transaction, the account context
is open and the transaction's `account_id` and `account_desc` are copies of
it.  Third conjunct: the same guarantee for the full `parse` output. -/
theorem claim_C3 :
    (∀ (pre : List String) (t : Transaction),
      t ∈ (processLines initState pre).transactions →
      ∃ l ∈ pre, headerFired l = some t.account_id) ∧
    (∀ (st : ParserState) (line : String) (t : Transaction),
      (processLine st line).transactions = st.transactions ++ [t] →
      st.current_account_id = some t.account_id ∧
      t.account_desc = st.current_account_desc) ∧
    (∀ (pages : List (Option String)) (t : Transaction),
      t ∈ (parse pages).1 →
      ∃ l ∈ pages.flatMap pageLines, headerFired l = some t.account_id) := by
  have base := fun (pre : List String) =>
    no_orphan_lines pre initState [] (by simp [initState]) (by simp [initState])
  refine ⟨fun pre t ht => ?_, fun st line t htr => ?_, fun pages t ht => ?_⟩
  · simpa using (base pre).1 t ht
  · rcases step_cases st line with ⟨h, _⟩ | ⟨x, _, h, _⟩ | ⟨t0, h, hown, hdesc, _⟩
    · rw [htr] at h
      exact absurd h.symm (by simp)
    · rw [htr] at h
      exact absurd h.symm (by simp)
    · rw [htr] at h
      have ht0 : t = t0 := by
        have := List.append_cancel_left h
        simpa using this
      subst ht0
      exact ⟨hown, hdesc⟩
  · have hfin : (parse pages).1 = (parsePages pages).transactions := by
      unfold parse parseFinal
      by_cases hid : (parsePages pages).current_account_id.isSome <;>
        simp [hid, flushZero, flushAccount]
    have hp : parsePages pages = processLines initState (pages.flatMap pageLines) :=
      pages_flatten pages initState
    rw [hfin, hp] at ht
    simpa using (base (pages.flatMap pageLines)).1 t ht

/-- Witness for C3: the transaction produced by a concrete two-line input is
owned by the header line preceding it. -/
theorem claim_C3_witness :
    ∃ l ∈ ["1-0001 Alpha", "TRX0001AB 1/1/2020 memo $1.00 $2.00 j7 $3.00 $4.00"],
      headerFired l = some (Transaction.account_id
        ⟨"1-0001", some "Alpha", "TRX0001", "AB", "1/1/2020", "memo",
          "1.00", "2.00", "j7", "3.00", "4.00"⟩) :=
  claim_C3.1 ["1-0001 Alpha", "TRX0001AB 1/1/2020 memo $1.00 $2.00 j7 $3.00 $4.00"]
    ⟨"1-0001", some "Alpha", "TRX0001", "AB", "1/1/2020", "memo",
      "1.00", "2.00", "j7", "3.00", "4.00"⟩
    (by decide)
